import Mathlib

/-!
Verification development for the health-assistant chat application
(`src/app.py`).  The summary-extraction routine, the response-cleaning
routine and the session/chat-handler state updates are shallowly embedded
over `List Char`, and the spec's claims about them are settled as theorems.

Python reference points (all from `src/app.py`):
* `extract_summaries` (lines 29-40): two `re.search` calls with non-greedy
  bodies and `re.DOTALL`; a match starts at the first occurrence of the
  open marker and its body ends at the first occurrence of the close
  marker after it; `None` when either marker is missing; bodies are
  `.strip()`-ed.
* `clean_response_for_display` (lines 42-46): two `re.sub` calls removing
  every non-overlapping match left-to-right (continuing after each match,
  never rescanning the spliced junction), then `.strip()`.
* the chat-input handler (lines 209-253): appends the patient turn,
  then on a truthy response extracts summaries, overwrites the stored
  pair only when BOTH extracted values are truthy (Python truthiness:
  `None` and `""` are falsy), cleans the response — taking the part after
  the last `"Assistant:"` when that substring occurs — and appends the
  assistant turn; on a falsy/absent response shows an error and appends
  nothing further.
* the sidebar reset button (lines 336-339) deletes every session key, and
  the initialization block (lines 16-23) recreates the empty state.
-/

set_option maxRecDepth 100000

namespace HealthBot

/-- Texts are lists of characters (the embedding of Python `str`). -/
abbrev Text := List Char

/-- Coerce a Lean string literal to the `Text` representation. -/
def str (s : String) : Text := s.toList

/-- Whitespace stripped by Python's `str.strip()` (ASCII fragment; the
texts handled by the app are ASCII). -/
def isPySpace (c : Char) : Bool :=
  c = ' ' || c = '\t' || c = '\n' || c = '\r' || c = '\x0b' || c = '\x0c'

/-- Left half of Python `str.strip()`. -/
def lstrip (t : Text) : Text := t.dropWhile isPySpace

/-- Right half of Python `str.strip()`. -/
def rstrip (t : Text) : Text := (t.reverse.dropWhile isPySpace).reverse

/-- Python `str.strip()`. -/
def pstrip (t : Text) : Text := rstrip (lstrip t)

/-- Boolean test that `pat` is a prefix of `t`. -/
def isPrefixB : Text → Text → Bool
  | [], _ => true
  | _ :: _, [] => false
  | a :: xs, b :: ys => if a = b then isPrefixB xs ys else false

/-- Index of the first occurrence of `pat` as a contiguous substring of
`t` (`re.search` on a literal pattern; also Python `str.find`). -/
def findSub (pat : Text) : Text → Option Nat
  | [] => if isPrefixB pat [] then some 0 else none
  | c :: t =>
    if isPrefixB pat (c :: t) then some 0
    else (findSub pat (t)).map (fun n => n + 1)

/-- Boolean substring containment (Python `in`). -/
def occursB (pat t : Text) : Bool := (findSub pat t).isSome

/-- Number of (possibly overlapping) start positions at which `pat`
occurs in `t`; used to state "contains exactly one section" side
conditions. -/
def countOccur (pat : Text) : Text → Nat
  | [] => if isPrefixB pat [] then 1 else 0
  | c :: t => (if isPrefixB pat (c :: t) then 1 else 0) + countOccur pat t

/-- `---BEGIN_PATIENT_SUMMARY---` (line 31 of `app.py`). -/
def patientOpen : Text := str "---BEGIN_PATIENT_SUMMARY---"

/-- `---END_PATIENT_SUMMARY---` (line 31 of `app.py`). -/
def patientClose : Text := str "---END_PATIENT_SUMMARY---"

/-- `---BEGIN_CLINICAL_SUMMARY_CONFIDENTIAL---` (line 32 of `app.py`). -/
def clinicalOpen : Text := str "---BEGIN_CLINICAL_SUMMARY_CONFIDENTIAL---"

/-- `---END_CLINICAL_SUMMARY_CONFIDENTIAL---` (line 32 of `app.py`). -/
def clinicalClose : Text := str "---END_CLINICAL_SUMMARY_CONFIDENTIAL---"

/-- One `re.search (open)(.*?)(close)` with `re.DOTALL` on a literal
pattern: the body runs from just after the first occurrence of the open
marker to the first occurrence of the close marker after it; `none` when
either is missing (Python returns `None`). -/
def extractOne (oM cM t : Text) : Option Text :=
  match findSub oM t with
  | none => none
  | some i =>
    match findSub cM (t.drop (i + oM.length)) with
    | none => none
    | some j => some ((t.drop (i + oM.length)).take j)

/-- `extract_summaries` (lines 29-40 of `app.py`): both section bodies,
`.strip()`-ed, or `none` for a section whose markers are not both found. -/
def extract_summaries (t : Text) : Option Text × Option Text :=
  ((extractOne patientOpen patientClose t).map pstrip,
   (extractOne clinicalOpen clinicalClose t).map pstrip)

/-- One `re.sub` pass with the section pattern: repeatedly remove the
leftmost complete section, continuing at the position just after the
removed match (Python's `re.sub` never rescans the spliced junction).
The fuel argument only bounds the recursion; since each successful step
consumes at least the two markers' lengths from the text, fuel equal to
the text length never runs out. -/
def removeAllFuel (oM cM : Text) : Nat → Text → Text
  | 0, t => t
  | fuel + 1, t =>
    match findSub oM t with
    | none => t
    | some i =>
      match findSub cM (t.drop (i + oM.length)) with
      | none => t
      | some j =>
        t.take i ++
          removeAllFuel oM cM fuel ((t.drop (i + oM.length)).drop (j + cM.length))

/-- `re.sub (open).*?(close) -> ""` over the whole text. -/
def removeAll (oM cM t : Text) : Text := removeAllFuel oM cM t.length t

/-- `clean_response_for_display` (lines 42-46 of `app.py`): remove all
patient sections, then all clinical sections, then `.strip()`. -/
def clean_response_for_display (t : Text) : Text :=
  pstrip (removeAll clinicalOpen clinicalClose (removeAll patientOpen patientClose t))

/-- Speaker of a turn (`"user"` / `"assistant"` role strings). -/
inductive Role
  | user
  | assistant
deriving DecidableEq

/-- One message dict of `st.session_state.messages`: user messages carry
no `"display"` key (`display = none`), assistant messages store the
cleaned display text alongside the raw content. -/
structure Message where
  role : Role
  content : Text
  display : Option Text
deriving DecidableEq

/-- The session state of the app (lines 16-23 of `app.py`). -/
structure AppState where
  messages : List Message
  patient_summary : Text
  clinical_summary : Text
  conversation_history : List Message
deriving DecidableEq

/-- The freshly initialized session (lines 16-23 of `app.py`). -/
def initState : AppState := ⟨[], [], [], []⟩

/-- The "New Consultation" button (lines 336-339 of `app.py`): every
session key is deleted and the rerun re-creates the initial state. -/
def reset (_ : AppState) : AppState := initState

/-- The doctor dashboard's completion status (line 265 of `app.py`):
`"Complete" if st.session_state.clinical_summary else "In Progress"`,
i.e. Python truthiness of the stored clinical summary. -/
def isComplete (s : AppState) : Bool := !s.clinical_summary.isEmpty

/-- The `"Assistant:"` separator used on line 235 of `app.py`. -/
def assistantSep : Text := str "Assistant:"

/-- The last element of Python `text.split(sep)` when `sep` occurs in
`text` (`parts[-1]` on line 238 of `app.py`), `none` otherwise: repeatedly
jump past the leftmost occurrence of `sep`; the final remainder is the
last part.  Fuel equal to the text length suffices because every step
consumes at least `sep.length ≥ 1` characters. -/
def afterLastSepFuel (sep : Text) : Nat → Text → Option Text
  | 0, _ => none
  | fuel + 1, t =>
    match findSub sep t with
    | none => none
    | some i =>
      match afterLastSepFuel sep fuel (t.drop (i + sep.length)) with
      | none => some (t.drop (i + sep.length))
      | some r => some r

/-- Suffix of `t` after the last occurrence of `sep` (see
`afterLastSepFuel`). -/
def afterLastSep (sep t : Text) : Option Text := afterLastSepFuel sep t.length t

/-- Python truthiness of an optional string: `None` and `""` are falsy
(the `if patient_sum and clinical_sum:` test on line 226 of `app.py`). -/
def truthyOpt : Option Text → Bool
  | none => false
  | some s => !s.isEmpty

/-- The display text stored for an assistant turn (lines 230-239 of
`app.py`): the cleaned full response, except that when `"Assistant:"`
occurs in the raw response the code instead cleans the stripped part
after its last occurrence. -/
def responseDisplay (full : Text) : Text :=
  match afterLastSep assistantSep full with
  | none => clean_response_for_display full
  | some tail => clean_response_for_display (pstrip tail)

/-- The chat-input handler (lines 209-253 of `app.py`), with the external
model call's result passed in as `resp` (`none` embeds a call that
returned no response).  Returns the new session state together with a
flag recording whether the error path (`st.error`) was taken instead of
recording an assistant turn. -/
def handleChatInput (s : AppState) (prompt : Text) (resp : Option Text) :
    AppState × Bool :=
  let s1 : AppState :=
    { s with messages := s.messages ++ [⟨Role.user, prompt, none⟩] }
  match resp with
  | none => (s1, true)
  | some full =>
    if full.isEmpty then
      (s1, true)
    else
      let pc := extract_summaries full
      let s2 : AppState :=
        if truthyOpt pc.1 && truthyOpt pc.2 then
          { s1 with patient_summary := pc.1.getD [],
                    clinical_summary := pc.2.getD [] }
        else s1
      ({ s2 with messages :=
          s2.messages ++ [⟨Role.assistant, full, some (responseDisplay full)⟩] },
       false)

/-- The patient chat column (lines 191-206 of `app.py`) as the sequence
of texts it writes: each message's display text (assistant messages fall
back to raw content when the display key is missing), followed by the
patient summary box when that summary is truthy. -/
def renderPatientColumn (s : AppState) : List Text :=
  (s.messages.map fun m =>
    match m.role with
    | Role.assistant => m.display.getD m.content
    | Role.user => m.content)
  ++ (if s.patient_summary.isEmpty then [] else [s.patient_summary])

/-- The `display` field of the most recently appended message. -/
def lastDisplay (s : AppState) : Option Text :=
  match s.messages.getLast? with
  | none => none
  | some m => m.display

/-- The response of Example 1 of the spec: chat text followed by one
complete patient section and one complete clinical section. -/
def exampleResponse : Text :=
  str "Take ibuprofen. ---BEGIN_PATIENT_SUMMARY---Mild headache, advised rest.---END_PATIENT_SUMMARY--- ---BEGIN_CLINICAL_SUMMARY_CONFIDENTIAL---Tension cephalalgia, no red flags.---END_CLINICAL_SUMMARY_CONFIDENTIAL---"

/-- A session that already holds a previously stored summary pair. -/
def storedState : AppState := ⟨[], str "old1", str "old2", []⟩

/-- A response whose patient body strips to the empty string while the
clinical body is nonempty (both sections complete). -/
def emptyPatientResponse : Text :=
  str "ok ---BEGIN_PATIENT_SUMMARY---   ---END_PATIENT_SUMMARY--- ---BEGIN_CLINICAL_SUMMARY_CONFIDENTIAL---x---END_CLINICAL_SUMMARY_CONFIDENTIAL---"

/-- A response carrying both sections with empty bodies. -/
def emptyBothResponse : Text :=
  str "done ---BEGIN_PATIENT_SUMMARY------END_PATIENT_SUMMARY--- ---BEGIN_CLINICAL_SUMMARY_CONFIDENTIAL------END_CLINICAL_SUMMARY_CONFIDENTIAL---"

/-- A response containing exactly one complete patient section and one
complete clinical section, arranged so that deleting the patient section
splices together a new clinical open marker
(`"---BEGIN_CLINICAL_SUMMARY_CONFIDENTI" ++ "AL---"`). -/
def spliceExample : Text :=
  str "---BEGIN_CLINICAL_SUMMARY_CONFIDENTI---BEGIN_PATIENT_SUMMARY---P---END_PATIENT_SUMMARY---AL---X---BEGIN_CLINICAL_SUMMARY_CONFIDENTIAL---Q---END_CLINICAL_SUMMARY_CONFIDENTIAL---end"

/-- A response in which removing the single complete patient section
splices together a second complete patient section around `"hello"`. -/
def spliceIdemExample : Text :=
  str "---BEGIN_PATIENT_SUMM---BEGIN_PATIENT_SUMMARY---x---END_PATIENT_SUMMARY---ARY---hello---END_PATIENT_SUMMARY---"

theorem isPrefixB_iff (x y : Text) : isPrefixB x y = true ↔ x <+: y := by
  induction x generalizing y with
  | nil => simp [isPrefixB]
  | cons a xs ih =>
    cases y with
    | nil => simp [isPrefixB]
    | cons b ys =>
      by_cases hab : a = b
      · simp [isPrefixB, hab, List.cons_prefix_cons, ih]
      · simp [isPrefixB, hab, List.cons_prefix_cons]

theorem findSub_some_matches (pat t : Text) (i : Nat)
    (h : findSub pat t = some i) : pat <+: t.drop i := by
  induction t generalizing i with
  | nil =>
    by_cases hp : isPrefixB pat [] = true
    · simp [findSub, hp] at h
      subst h
      simpa using (isPrefixB_iff _ _).mp hp
    · simp [findSub, hp] at h
  | cons c t ih =>
    by_cases hp : isPrefixB pat (c :: t) = true
    · simp [findSub, hp] at h
      subst h
      simpa using (isPrefixB_iff _ _).mp hp
    · simp [findSub, hp] at h
      obtain ⟨j, hj, rfl⟩ := h
      simpa using ih j hj

theorem findSub_none (pat t : Text) (h : findSub pat t = none) :
    ∀ j, ¬ pat <+: t.drop j := by
  induction t with
  | nil =>
    intro j hj
    by_cases hp : isPrefixB pat [] = true
    · simp [findSub, hp] at h
    · rw [List.drop_nil] at hj
      exact hp ((isPrefixB_iff _ _).mpr hj)
  | cons c t ih =>
    intro j hj
    by_cases hp : isPrefixB pat (c :: t) = true
    · simp [findSub, hp] at h
    · simp [findSub, hp] at h
      cases j with
      | zero => exact hp ((isPrefixB_iff _ _).mpr (by simpa using hj))
      | succ k => exact ih h k (by simpa using hj)

theorem findSub_eq_none_of (pat t : Text) (h : ∀ j, ¬ pat <+: t.drop j) :
    findSub pat t = none := by
  cases hf : findSub pat t with
  | none => rfl
  | some i => exact absurd (findSub_some_matches _ _ _ hf) (h i)

theorem findSub_eq_some_of_unique (pat t : Text) (i : Nat)
    (hocc : pat <+: t.drop i) (huniq : ∀ j, pat <+: t.drop j → j = i) :
    findSub pat t = some i := by
  cases hf : findSub pat t with
  | none => exact absurd hocc (findSub_none _ _ hf i)
  | some k =>
    have hk : k = i := huniq k (findSub_some_matches _ _ _ hf)
    rw [hk]

theorem countOccur_pos (pat t : Text) (hne : pat ≠ []) (j : Nat)
    (h : pat <+: t.drop j) : 1 ≤ countOccur pat t := by
  induction t generalizing j with
  | nil =>
    rw [List.drop_nil] at h
    exact absurd (List.prefix_nil.mp h) hne
  | cons c t ih =>
    cases j with
    | zero =>
      have hp : isPrefixB pat (c :: t) = true :=
        (isPrefixB_iff _ _).mpr (by simpa using h)
      simp [countOccur, hp]
    | succ k =>
      have h1 := ih k (by simpa using h)
      by_cases hp : isPrefixB pat (c :: t) = true <;> simp [countOccur, hp] <;> omega

theorem countOccur_two (pat t : Text) (hne : pat ≠ []) (i j : Nat) (hij : i < j)
    (hi : pat <+: t.drop i) (hj : pat <+: t.drop j) : 2 ≤ countOccur pat t := by
  induction t generalizing i j with
  | nil =>
    rw [List.drop_nil] at hi
    exact absurd (List.prefix_nil.mp hi) hne
  | cons c t ih =>
    cases i with
    | zero =>
      cases j with
      | zero => omega
      | succ k =>
        have h1 : 1 ≤ countOccur pat t := countOccur_pos pat t hne k (by simpa using hj)
        have hp : isPrefixB pat (c :: t) = true :=
          (isPrefixB_iff _ _).mpr (by simpa using hi)
        simp [countOccur, hp]
        omega
    | succ a =>
      cases j with
      | zero => omega
      | succ b =>
        have h2 := ih a b (by omega) (by simpa using hi) (by simpa using hj)
        by_cases hp : isPrefixB pat (c :: t) = true <;> simp [countOccur, hp] <;> omega

theorem countOccur_one_unique (pat t : Text) (hne : pat ≠ [])
    (h1 : countOccur pat t = 1) {i j : Nat}
    (hi : pat <+: t.drop i) (hj : pat <+: t.drop j) : i = j := by
  rcases Nat.lt_trichotomy i j with h | h | h
  · have := countOccur_two pat t hne i j h hi hj
    omega
  · exact h
  · have := countOccur_two pat t hne j i h hj hi
    omega

theorem drop_append_len (x y : Text) (j : Nat) :
    (x ++ y).drop (x.length + j) = y.drop j := by
  induction x with
  | nil => simp
  | cons a x ih => simpa [Nat.succ_add] using ih

theorem drop_append_len0 (x y : Text) : (x ++ y).drop x.length = y := by
  simpa using drop_append_len x y 0

theorem take_append_len (x y : Text) : (x ++ y).take x.length = x := by
  induction x with
  | nil => simp
  | cons a x ih => simp [ih]

theorem drop_drop_add (t : Text) (m j : Nat) : (t.drop m).drop j = t.drop (m + j) := by
  rw [List.drop_drop]

theorem occ_at_suffix (pat z t : Text) (m : Nat) (hm : t.drop m = z) (j : Nat)
    (h : pat <+: z.drop j) : pat <+: t.drop (m + j) := by
  rw [← drop_drop_add, hm]
  exact h

theorem findSub_suffix_decomp (pat t x y : Text) (M : Nat) (hne : pat ≠ [])
    (hz : t.drop M = x ++ (pat ++ y)) (hcount : countOccur pat t = 1) :
    findSub pat (x ++ (pat ++ y)) = some x.length := by
  have hocc : pat <+: (x ++ (pat ++ y)).drop x.length := by
    rw [drop_append_len0]
    exact List.prefix_append pat y
  apply findSub_eq_some_of_unique _ _ _ hocc
  intro j hj
  have hjt : pat <+: t.drop (M + j) := occ_at_suffix pat _ t M hz j hj
  have hxt : pat <+: t.drop (M + x.length) := occ_at_suffix pat _ t M hz x.length hocc
  have := countOccur_one_unique pat t hne hcount hjt hxt
  omega

theorem findSub_decomp (pat x y : Text) (hne : pat ≠ [])
    (hcount : countOccur pat (x ++ (pat ++ y)) = 1) :
    findSub pat (x ++ (pat ++ y)) = some x.length :=
  findSub_suffix_decomp pat (x ++ (pat ++ y)) x y 0 hne rfl hcount

theorem extractOne_decomp (oM cM x m y : Text) (hoM : oM ≠ []) (hcM : cM ≠ [])
    (ho : countOccur oM (x ++ (oM ++ (m ++ (cM ++ y)))) = 1)
    (hc : countOccur cM (x ++ (oM ++ (m ++ (cM ++ y)))) = 1) :
    extractOne oM cM (x ++ (oM ++ (m ++ (cM ++ y)))) = some m := by
  have h1 : findSub oM (x ++ (oM ++ (m ++ (cM ++ y)))) = some x.length :=
    findSub_decomp oM x (m ++ (cM ++ y)) hoM ho
  have hrest : (x ++ (oM ++ (m ++ (cM ++ y)))).drop (x.length + oM.length)
      = m ++ (cM ++ y) := by
    rw [← drop_drop_add, drop_append_len0, drop_append_len0]
  have h2 : findSub cM (m ++ (cM ++ y)) = some m.length :=
    findSub_suffix_decomp cM (x ++ (oM ++ (m ++ (cM ++ y)))) m y
      (x.length + oM.length) hcM hrest hc
  simp only [extractOne, h1, hrest, h2, take_append_len]

theorem removeAllFuel_no_occ (oM cM t : Text) (h : findSub oM t = none) :
    ∀ fuel, removeAllFuel oM cM fuel t = t := by
  intro fuel
  cases fuel with
  | zero => rfl
  | succ f => simp [removeAllFuel, h]

theorem removeAll_no_occ (oM cM t : Text) (h : findSub oM t = none) :
    removeAll oM cM t = t :=
  removeAllFuel_no_occ oM cM t h t.length

theorem removeAll_decomp (oM cM x m y : Text) (hoM : oM ≠ []) (hcM : cM ≠ [])
    (ho : countOccur oM (x ++ (oM ++ (m ++ (cM ++ y)))) = 1)
    (hc : countOccur cM (x ++ (oM ++ (m ++ (cM ++ y)))) = 1) :
    removeAll oM cM (x ++ (oM ++ (m ++ (cM ++ y)))) = x ++ y := by
  have h1 : findSub oM (x ++ (oM ++ (m ++ (cM ++ y)))) = some x.length :=
    findSub_decomp oM x (m ++ (cM ++ y)) hoM ho
  have hrest : (x ++ (oM ++ (m ++ (cM ++ y)))).drop (x.length + oM.length)
      = m ++ (cM ++ y) := by
    rw [← drop_drop_add, drop_append_len0, drop_append_len0]
  have h2 : findSub cM (m ++ (cM ++ y)) = some m.length :=
    findSub_suffix_decomp cM (x ++ (oM ++ (m ++ (cM ++ y)))) m y
      (x.length + oM.length) hcM hrest hc
  have hdrop2 : (m ++ (cM ++ y)).drop (m.length + cM.length) = y := by
    rw [← drop_drop_add, drop_append_len0, drop_append_len0]
  have hopos : 0 < oM.length := List.length_pos.mpr hoM
  have hnoY : findSub oM y = none := by
    apply findSub_eq_none_of
    intro j hj
    have hyd : (x ++ (oM ++ (m ++ (cM ++ y)))).drop
        ((x.length + oM.length) + (m.length + cM.length)) = y := by
      rw [← drop_drop_add, hrest, hdrop2]
    have hjt : oM <+: (x ++ (oM ++ (m ++ (cM ++ y)))).drop
        (((x.length + oM.length) + (m.length + cM.length)) + j) :=
      occ_at_suffix oM y _ _ hyd j hj
    have hxt : oM <+: (x ++ (oM ++ (m ++ (cM ++ y)))).drop x.length := by
      rw [drop_append_len0]
      exact List.prefix_append oM _
    have := countOccur_one_unique oM _ hoM ho hjt hxt
    omega
  obtain ⟨F, hF⟩ : ∃ F, (x ++ (oM ++ (m ++ (cM ++ y)))).length = F + 1 := by
    have : 0 < (x ++ (oM ++ (m ++ (cM ++ y)))).length := by
      simp only [List.length_append]
      omega
    exact ⟨(x ++ (oM ++ (m ++ (cM ++ y)))).length - 1, by omega⟩
  unfold removeAll
  rw [hF]
  simp only [removeAllFuel, h1, hrest, h2, hdrop2, take_append_len,
    removeAllFuel_no_occ oM cM y hnoY]

theorem dropWhile_self_idem (p : Char → Bool) (t : Text) :
    (t.dropWhile p).dropWhile p = t.dropWhile p := by
  induction t with
  | nil => rfl
  | cons c t ih =>
    by_cases hp : p c = true
    · simp [List.dropWhile_cons, hp, ih]
    · simp [List.dropWhile_cons, hp]

theorem dropWhile_self_suffix (p : Char → Bool) (t : Text) : t.dropWhile p <:+ t := by
  induction t with
  | nil => exact List.suffix_refl []
  | cons c t ih =>
    by_cases hp : p c = true
    · simp only [List.dropWhile_cons, hp, if_pos]
      exact ih.trans (List.suffix_cons c t)
    · simp only [List.dropWhile_cons, hp]
      exact List.suffix_refl _

theorem lstrip_suffix (t : Text) : lstrip t <:+ t := dropWhile_self_suffix isPySpace t

theorem rstrip_prefixOf (t : Text) : rstrip t <+: t := by
  obtain ⟨u, hu⟩ := dropWhile_self_suffix isPySpace t.reverse
  refine ⟨u.reverse, ?_⟩
  have := congrArg List.reverse hu
  simpa [rstrip] using this

theorem lstrip_idem (t : Text) : lstrip (lstrip t) = lstrip t :=
  dropWhile_self_idem isPySpace t

theorem rstrip_idem (t : Text) : rstrip (rstrip t) = rstrip t := by
  unfold rstrip
  rw [List.reverse_reverse, dropWhile_self_idem]

theorem lstrip_of_prefixOf (z w : Text) (hz : lstrip z = z) (hw : w <+: z) :
    lstrip w = w := by
  cases z with
  | nil =>
    have : w = [] := List.prefix_nil.mp hw
    subst this
    rfl
  | cons c z =>
    cases w with
    | nil => rfl
    | cons d w =>
      have hd : d = c := (List.cons_prefix_cons.mp hw).1
      have hpc : isPySpace c = false := by
        by_contra h'
        have hpc' : isPySpace c = true := by
          cases h'' : isPySpace c
          · exact absurd h'' h'
          · rfl
        have hlen : (List.dropWhile isPySpace z).length ≤ z.length :=
          (dropWhile_self_suffix isPySpace z).sublist.length_le
        rw [lstrip, List.dropWhile_cons, if_pos hpc'] at hz
        have := congrArg List.length hz
        simp at this
        omega
      subst hd
      simp [lstrip, List.dropWhile_cons, hpc]

theorem lstrip_pstrip (t : Text) : lstrip (pstrip t) = pstrip t :=
  lstrip_of_prefixOf (lstrip t) (pstrip t) (lstrip_idem t) (rstrip_prefixOf (lstrip t))

theorem pstrip_idem (t : Text) : pstrip (pstrip t) = pstrip t := by
  unfold pstrip
  rw [show lstrip (rstrip (lstrip t)) = rstrip (lstrip t) from lstrip_pstrip t]
  exact rstrip_idem (lstrip t)

theorem pstrip_contained (t : Text) : pstrip t <:+: t :=
  ((rstrip_prefixOf (lstrip t)).isInfix).trans (lstrip_suffix t).isInfix

theorem findSub_isSome_iff_contains (pat t : Text) :
    (findSub pat t).isSome = true ↔ pat <:+: t := by
  constructor
  · intro h
    obtain ⟨i, hi⟩ := Option.isSome_iff_exists.mp h
    obtain ⟨r, hr⟩ := findSub_some_matches pat t i hi
    exact ⟨t.take i, r, by rw [List.append_assoc, hr, List.take_append_drop]⟩
  · rintro ⟨u, v, huv⟩
    have hocc : pat <+: t.drop u.length := by
      rw [← huv, List.append_assoc, drop_append_len0]
      exact List.prefix_append pat v
    cases hf : findSub pat t with
    | none => exact absurd hocc (findSub_none pat t hf u.length)
    | some k => rfl

theorem findSub_eq_none_iff_not_contains (pat t : Text) :
    findSub pat t = none ↔ ¬ pat <:+: t := by
  rw [← findSub_isSome_iff_contains]
  cases findSub pat t <;> simp

theorem afterLastSepFuel_suffix (sep : Text) (fuel : Nat) (t r : Text)
    (h : afterLastSepFuel sep fuel t = some r) : r <:+ t := by
  induction fuel generalizing t r with
  | zero => simp [afterLastSepFuel] at h
  | succ f ih =>
    cases hf : findSub sep t with
    | none => simp [afterLastSepFuel, hf] at h
    | some i =>
      cases hr : afterLastSepFuel sep f (t.drop (i + sep.length)) with
      | none =>
        simp only [afterLastSepFuel, hf, hr, Option.some.injEq] at h
        subst h
        exact List.drop_suffix _ _
      | some r' =>
        simp only [afterLastSepFuel, hf, hr, Option.some.injEq] at h
        subst h
        exact (ih _ _ hr).trans (List.drop_suffix _ _)

theorem afterLastSep_suffix (sep t r : Text) (h : afterLastSep sep t = some r) :
    r <:+ t :=
  afterLastSepFuel_suffix sep t.length t r h

theorem afterLastSep_eq_none_iff (sep t : Text) (hsep : sep ≠ []) :
    afterLastSep sep t = none ↔ findSub sep t = none := by
  unfold afterLastSep
  cases hl : t.length with
  | zero =>
    have ht : t = [] := List.length_eq_zero.mp hl
    subst ht
    have : findSub sep [] = none := by
      apply findSub_eq_none_of
      intro j hj
      rw [List.drop_nil] at hj
      exact hsep (List.prefix_nil.mp hj)
    simp [afterLastSepFuel, this]
  | succ F =>
    constructor
    · intro h
      cases hf : findSub sep t with
      | none => rfl
      | some i =>
        exfalso
        cases hr : afterLastSepFuel sep F (t.drop (i + sep.length)) with
        | none => simp [afterLastSepFuel, hf, hr] at h
        | some r => simp [afterLastSepFuel, hf, hr] at h
    · intro h
      simp [afterLastSepFuel, h]

theorem patientOpen_ne_nil : patientOpen ≠ [] := by decide

theorem patientClose_ne_nil : patientClose ≠ [] := by decide

theorem clinicalOpen_ne_nil : clinicalOpen ≠ [] := by decide

theorem clinicalClose_ne_nil : clinicalClose ≠ [] := by decide

theorem isEmpty_false_of_ne (t : Text) (h : t ≠ []) : t.isEmpty = false := by
  cases t with
  | nil => exact absurd rfl h
  | cons a t => rfl

theorem clean_no_open (t : Text) (h1 : findSub patientOpen t = none)
    (h2 : findSub clinicalOpen t = none) :
    clean_response_for_display t = pstrip t := by
  unfold clean_response_for_display
  rw [removeAll_no_occ _ _ _ h1, removeAll_no_occ _ _ _ h2]

theorem handle_empty_response (s : AppState) (prompt full : Text)
    (h : full.isEmpty = true) :
    handleChatInput s prompt (some full) =
      ({ s with messages := s.messages ++ [⟨Role.user, prompt, none⟩] }, true) := by
  simp [handleChatInput, h]

theorem handle_patient_summary (s : AppState) (prompt full : Text)
    (hne : full.isEmpty = false) :
    (handleChatInput s prompt (some full)).1.patient_summary =
      (if truthyOpt (extract_summaries full).1 && truthyOpt (extract_summaries full).2
       then (extract_summaries full).1.getD [] else s.patient_summary) := by
  by_cases hc : (truthyOpt (extract_summaries full).1 &&
      truthyOpt (extract_summaries full).2) = true
  · simp [handleChatInput, hne, hc]
  · rw [Bool.not_eq_true] at hc
    simp [handleChatInput, hne, hc]

theorem handle_clinical_summary (s : AppState) (prompt full : Text)
    (hne : full.isEmpty = false) :
    (handleChatInput s prompt (some full)).1.clinical_summary =
      (if truthyOpt (extract_summaries full).1 && truthyOpt (extract_summaries full).2
       then (extract_summaries full).2.getD [] else s.clinical_summary) := by
  by_cases hc : (truthyOpt (extract_summaries full).1 &&
      truthyOpt (extract_summaries full).2) = true
  · simp [handleChatInput, hne, hc]
  · rw [Bool.not_eq_true] at hc
    simp [handleChatInput, hne, hc]

theorem getLast_append_one {α : Type} (l : List α) (x : α) :
    (l ++ [x]).getLast? = some x := by
  induction l with
  | nil => rfl
  | cons a l ih =>
    rw [List.cons_append, List.getLast?_cons, ih]
    rfl

theorem lastDisplay_handle (s : AppState) (prompt full : Text)
    (hne : full.isEmpty = false) :
    lastDisplay (handleChatInput s prompt (some full)).1 =
      some (responseDisplay full) := by
  by_cases hc : (truthyOpt (extract_summaries full).1 &&
      truthyOpt (extract_summaries full).2) = true
  · simp [handleChatInput, lastDisplay, hne, hc, getLast_append_one]
  · rw [Bool.not_eq_true] at hc
    simp [handleChatInput, lastDisplay, hne, hc, getLast_append_one]

/-- C6: for every input text containing neither kind of delimiter marker,
the Extractor returns the input trimmed of leading/trailing whitespace but
otherwise unchanged as the display text, and reports both the patient
summary and the clinical summary as absent. -/
theorem no_markers_noop (t : Text)
    (h1 : ¬ patientOpen <:+: t) (h2 : ¬ patientClose <:+: t)
    (h3 : ¬ clinicalOpen <:+: t) (h4 : ¬ clinicalClose <:+: t) :
    extract_summaries t = (none, none) ∧
    clean_response_for_display t = pstrip t := by
  have f1 : findSub patientOpen t = none :=
    (findSub_eq_none_iff_not_contains _ _).mpr h1
  have f3 : findSub clinicalOpen t = none :=
    (findSub_eq_none_iff_not_contains _ _).mpr h3
  constructor
  · simp [extract_summaries, extractOne, f1, f3]
  · exact clean_no_open t f1 f3

/-- Witness for C6 at a concrete marker-free text. -/
theorem no_markers_noop_witness :
    extract_summaries (str "  Hello, how can I help you today? ") = (none, none) ∧
    clean_response_for_display (str "  Hello, how can I help you today? ") =
      pstrip (str "  Hello, how can I help you today? ") :=
  no_markers_noop (str "  Hello, how can I help you today? ")
    (fun h => by
      have := (findSub_isSome_iff_contains _ _).mpr h
      revert this
      decide)
    (fun h => by
      have := (findSub_isSome_iff_contains _ _).mpr h
      revert this
      decide)
    (fun h => by
      have := (findSub_isSome_iff_contains _ _).mpr h
      revert this
      decide)
    (fun h => by
      have := (findSub_isSome_iff_contains _ _).mpr h
      revert this
      decide)

/-- C7: the patient chat column reads only the messages and the patient
summary; varying the stored clinical summary (and the auxiliary
conversation history) leaves the patient-visible output unchanged
(two-run noninterference of the patient-facing rendering path). -/
theorem patient_render_noninterference (msgs : List Message) (ps c c' : Text)
    (hist hist' : List Message) :
    renderPatientColumn ⟨msgs, ps, c, hist⟩ =
      renderPatientColumn ⟨msgs, ps, c', hist'⟩ := rfl

/-- C8: the "New Consultation" action restores the initial empty session
from any state: empty transcript, both summaries absent, `isComplete`
false; and it is idempotent. -/
theorem reset_clears_session (s : AppState) :
    reset s = initState ∧
    (reset s).messages = [] ∧
    (reset s).patient_summary = [] ∧
    (reset s).clinical_summary = [] ∧
    isComplete (reset s) = false ∧
    reset (reset s) = reset s :=
  ⟨rfl, rfl, rfl, rfl, rfl, rfl⟩

/-- C9: when the text-generation call fails (no response), the handler
reports the failure (error flag), appends no assistant turn, and leaves
the stored summaries unchanged — the only mutation is the already
appended patient turn. -/
theorem collaborator_failure_frame (s : AppState) (prompt : Text) :
    handleChatInput s prompt none =
      ({ s with messages := s.messages ++ [⟨Role.user, prompt, none⟩] }, true) ∧
    (handleChatInput s prompt none).2 = true ∧
    (handleChatInput s prompt none).1.patient_summary = s.patient_summary ∧
    (handleChatInput s prompt none).1.clinical_summary = s.clinical_summary ∧
    (handleChatInput s prompt none).1.messages =
      s.messages ++ [⟨Role.user, prompt, none⟩] :=
  ⟨rfl, rfl, rfl, rfl, rfl⟩

/-- C10: the display text stored for an assistant turn is the cleaned
full response when `"Assistant:"` does not occur in it, and otherwise the
cleaned (stripped) substring after the last occurrence of
`"Assistant:"`. -/
theorem assistant_split_display (s : AppState) (prompt full : Text)
    (hne : full ≠ []) :
    (¬ assistantSep <:+: full →
      lastDisplay (handleChatInput s prompt (some full)).1 =
        some (clean_response_for_display full)) ∧
    (∀ tail, afterLastSep assistantSep full = some tail →
      lastDisplay (handleChatInput s prompt (some full)).1 =
        some (clean_response_for_display (pstrip tail))) := by
  have hie := isEmpty_false_of_ne full hne
  constructor
  · intro hno
    rw [lastDisplay_handle s prompt full hie]
    have hf : findSub assistantSep full = none :=
      (findSub_eq_none_iff_not_contains _ _).mpr hno
    have ha : afterLastSep assistantSep full = none :=
      (afterLastSep_eq_none_iff _ _ (by decide)).mpr hf
    simp [responseDisplay, ha]
  · intro tail ht
    rw [lastDisplay_handle s prompt full hie]
    simp [responseDisplay, ht]

/-- Witness for C10: a response containing `"Assistant:"` stores the
cleaned suffix after its last occurrence as the display text. -/
theorem assistant_split_display_witness :
    lastDisplay (handleChatInput initState (str "hi")
        (some (str "Patient: hi\n\nAssistant: Rest well."))).1 =
      some (str "Rest well.") := by
  have h := (assistant_split_display initState (str "hi")
      (str "Patient: hi\n\nAssistant: Rest well.") (by decide)).2
    (str " Rest well.") (by decide)
  rw [h]
  decide

/-- C5 (amended): a Turn's display text contains none of the four literal
delimiter markers provided the assistant raw text contains none of them;
with unmatched or to-be-spliced marker fragments in the raw text the
invariant can fail (unmatched markers are left in place by the cleaning
routine). -/
theorem display_marker_free (s : AppState) (prompt full : Text) (hne : full ≠ [])
    (h1 : ¬ patientOpen <:+: full) (h2 : ¬ patientClose <:+: full)
    (h3 : ¬ clinicalOpen <:+: full) (h4 : ¬ clinicalClose <:+: full) :
    ∃ d, lastDisplay (handleChatInput s prompt (some full)).1 = some d ∧
      ¬ patientOpen <:+: d ∧ ¬ patientClose <:+: d ∧
      ¬ clinicalOpen <:+: d ∧ ¬ clinicalClose <:+: d := by
  have hie := isEmpty_false_of_ne full hne
  have hsub : responseDisplay full <:+: full := by
    unfold responseDisplay
    cases ha : afterLastSep assistantSep full with
    | none =>
      show clean_response_for_display full <:+: full
      rw [clean_no_open full ((findSub_eq_none_iff_not_contains _ _).mpr h1)
        ((findSub_eq_none_iff_not_contains _ _).mpr h3)]
      exact pstrip_contained full
    | some tail =>
      show clean_response_for_display (pstrip tail) <:+: full
      have htail : tail <:+: full := (afterLastSep_suffix _ _ _ ha).isInfix
      have hpt : pstrip tail <:+: full := (pstrip_contained tail).trans htail
      have f1 : findSub patientOpen (pstrip tail) = none :=
        (findSub_eq_none_iff_not_contains _ _).mpr (fun hm => h1 (hm.trans hpt))
      have f3 : findSub clinicalOpen (pstrip tail) = none :=
        (findSub_eq_none_iff_not_contains _ _).mpr (fun hm => h3 (hm.trans hpt))
      rw [clean_no_open _ f1 f3, pstrip_idem]
      exact hpt
  exact ⟨responseDisplay full, lastDisplay_handle s prompt full hie,
    fun hm => h1 (hm.trans hsub), fun hm => h2 (hm.trans hsub),
    fun hm => h3 (hm.trans hsub), fun hm => h4 (hm.trans hsub)⟩

/-- Witness for C5 at a concrete marker-free response. -/
theorem display_marker_free_witness :
    ∃ d, lastDisplay (handleChatInput initState (str "hi")
        (some (str " Please rest and hydrate. "))).1 = some d ∧
      ¬ patientOpen <:+: d ∧ ¬ patientClose <:+: d ∧
      ¬ clinicalOpen <:+: d ∧ ¬ clinicalClose <:+: d :=
  display_marker_free initState (str "hi") (str " Please rest and hydrate. ")
    (by decide)
    (fun h => by
      have := (findSub_isSome_iff_contains _ _).mpr h
      revert this
      decide)
    (fun h => by
      have := (findSub_isSome_iff_contains _ _).mpr h
      revert this
      decide)
    (fun h => by
      have := (findSub_isSome_iff_contains _ _).mpr h
      revert this
      decide)
    (fun h => by
      have := (findSub_isSome_iff_contains _ _).mpr h
      revert this
      decide)

/-- Counterexample to C5 as stated: a raw response consisting of chat text
followed by a lone close marker is stored verbatim as the turn's display
text, which therefore contains a literal delimiter marker. -/
theorem display_marker_free_counterexample :
    lastDisplay (handleChatInput initState (str "hi")
        (some (str "hello ---END_PATIENT_SUMMARY---"))).1 =
      some (str "hello ---END_PATIENT_SUMMARY---") ∧
    patientClose <:+: str "hello ---END_PATIENT_SUMMARY---" := by
  constructor
  · decide
  · exact (findSub_isSome_iff_contains _ _).mp (by decide)

/-- C4 (amended): rerunning the Extractor on a display text that contains
no open marker of either kind is a no-op — no section is found and the
text is returned unchanged.  This covers every display text whose raw
response's markers occurred only inside complete sections without
splicing; in general section removal can splice a new complete section
into the display text and the second run then differs. -/
theorem extractor_idempotent (t : Text)
    (h1 : findSub patientOpen (clean_response_for_display t) = none)
    (h2 : findSub clinicalOpen (clean_response_for_display t) = none) :
    extract_summaries (clean_response_for_display t) = (none, none) ∧
    clean_response_for_display (clean_response_for_display t) =
      clean_response_for_display t := by
  constructor
  · simp [extract_summaries, extractOne, h1, h2]
  · rw [clean_no_open _ h1 h2]
    unfold clean_response_for_display
    exact pstrip_idem _

/-- Witness for C4 at the response of Example 1. -/
theorem extractor_idempotent_witness :
    extract_summaries (clean_response_for_display exampleResponse) = (none, none) ∧
    clean_response_for_display (clean_response_for_display exampleResponse) =
      clean_response_for_display exampleResponse :=
  extractor_idempotent exampleResponse (by decide) (by decide)

/-- Counterexample to C4 as stated: removing the only complete patient
section of `spliceIdemExample` splices a new complete patient section
into the display text, so the second run extracts a section and changes
the text. -/
theorem extractor_idempotent_counterexample :
    clean_response_for_display (clean_response_for_display spliceIdemExample) ≠
      clean_response_for_display spliceIdemExample ∧
    extract_summaries (clean_response_for_display spliceIdemExample) ≠
      (none, none) := by
  constructor
  · decide
  · decide

/-- C2 (amended): recording an assistant turn overwrites the stored
summary pair exactly when both extracted summaries are present AND
nonempty after trimming (Python truthiness); when either is absent or
empty, both stored fields are left unchanged. -/
theorem summary_update_rule (s : AppState) (prompt full : Text) :
    (∀ ps cs, extract_summaries full = (some ps, some cs) → ps ≠ [] → cs ≠ [] →
      (handleChatInput s prompt (some full)).1.patient_summary = ps ∧
      (handleChatInput s prompt (some full)).1.clinical_summary = cs) ∧
    ((extract_summaries full).1 = none ∨ (extract_summaries full).2 = none ∨
     (extract_summaries full).1 = some [] ∨ (extract_summaries full).2 = some [] →
      (handleChatInput s prompt (some full)).1.patient_summary = s.patient_summary ∧
      (handleChatInput s prompt (some full)).1.clinical_summary = s.clinical_summary) := by
  constructor
  · intro ps cs hex hps hcs
    have hfne : full ≠ [] := by
      intro h
      rw [h, show extract_summaries ([] : Text) = (none, none) by decide] at hex
      simp at hex
    have hie := isEmpty_false_of_ne full hfne
    have e1 : (extract_summaries full).1 = some ps := by rw [hex]
    have e2 : (extract_summaries full).2 = some cs := by rw [hex]
    have htrue : (truthyOpt (extract_summaries full).1 &&
        truthyOpt (extract_summaries full).2) = true := by
      rw [e1, e2]
      simp [truthyOpt, isEmpty_false_of_ne ps hps, isEmpty_false_of_ne cs hcs]
    constructor
    · rw [handle_patient_summary s prompt full hie, if_pos htrue, e1]
      rfl
    · rw [handle_clinical_summary s prompt full hie, if_pos htrue, e2]
      rfl
  · intro hcase
    by_cases hie : full.isEmpty = true
    · rw [handle_empty_response s prompt full hie]
      exact ⟨rfl, rfl⟩
    · have hie' : full.isEmpty = false := by
        cases h : full.isEmpty
        · rfl
        · exact absurd h hie
      have hfalse : (truthyOpt (extract_summaries full).1 &&
          truthyOpt (extract_summaries full).2) = false := by
        rcases hcase with h | h | h | h <;> rw [h] <;> simp [truthyOpt]
      constructor
      · rw [handle_patient_summary s prompt full hie', hfalse]
        simp
      · rw [handle_clinical_summary s prompt full hie', hfalse]
        simp

/-- Witness for C2: the Example 1 response overwrites a previously stored
pair with both freshly extracted summaries. -/
theorem summary_update_rule_witness :
    (handleChatInput storedState (str "hi")
        (some exampleResponse)).1.patient_summary =
      str "Mild headache, advised rest." ∧
    (handleChatInput storedState (str "hi")
        (some exampleResponse)).1.clinical_summary =
      str "Tension cephalalgia, no red flags." :=
  (summary_update_rule storedState (str "hi") exampleResponse).1
    (str "Mild headache, advised rest.")
    (str "Tension cephalalgia, no red flags.")
    (by decide) (by decide) (by decide)

/-- Counterexample to C2 as stated: both sections are found (non-absent —
the patient body trims to the empty string), yet the handler leaves the
previously stored pair untouched instead of overwriting it. -/
theorem summary_update_rule_counterexample :
    (extract_summaries emptyPatientResponse).1 = some [] ∧
    (extract_summaries emptyPatientResponse).2 = some (str "x") ∧
    (handleChatInput storedState (str "hi")
        (some emptyPatientResponse)).1.patient_summary = str "old1" ∧
    (handleChatInput storedState (str "hi")
        (some emptyPatientResponse)).1.clinical_summary = str "old2" ∧
    str "old1" ≠ ([] : Text) :=
  ⟨by decide, by decide, by decide, by decide, by decide⟩

/-- C3 (amended): when both markers of a section are present with an
empty (or whitespace-only) body, the Extractor reports that section as
present with the empty string; but the session update rule treats an
empty extracted summary as absent (Python truthiness), so a response
carrying both sections with empty bodies does NOT overwrite the stored
summaries. -/
theorem empty_body_sections (a p b q c : Text)
    (h1 : countOccur patientOpen (a ++ patientOpen ++ p ++ patientClose ++ b ++
      clinicalOpen ++ q ++ clinicalClose ++ c) = 1)
    (h2 : countOccur patientClose (a ++ patientOpen ++ p ++ patientClose ++ b ++
      clinicalOpen ++ q ++ clinicalClose ++ c) = 1)
    (h3 : countOccur clinicalOpen (a ++ patientOpen ++ p ++ patientClose ++ b ++
      clinicalOpen ++ q ++ clinicalClose ++ c) = 1)
    (h4 : countOccur clinicalClose (a ++ patientOpen ++ p ++ patientClose ++ b ++
      clinicalOpen ++ q ++ clinicalClose ++ c) = 1)
    (hp : pstrip p = []) (hq : pstrip q = []) :
    extract_summaries (a ++ patientOpen ++ p ++ patientClose ++ b ++
      clinicalOpen ++ q ++ clinicalClose ++ c) = (some [], some []) ∧
    ∀ s prompt,
      (handleChatInput s prompt (some (a ++ patientOpen ++ p ++ patientClose ++ b ++
        clinicalOpen ++ q ++ clinicalClose ++ c))).1.patient_summary =
        s.patient_summary ∧
      (handleChatInput s prompt (some (a ++ patientOpen ++ p ++ patientClose ++ b ++
        clinicalOpen ++ q ++ clinicalClose ++ c))).1.clinical_summary =
        s.clinical_summary := by
  simp only [List.append_assoc] at h1 h2 h3 h4 ⊢
  have e1 : extractOne patientOpen patientClose
      (a ++ (patientOpen ++ (p ++ (patientClose ++ (b ++ (clinicalOpen ++
        (q ++ (clinicalClose ++ c)))))))) = some p :=
    extractOne_decomp patientOpen patientClose a p
      (b ++ (clinicalOpen ++ (q ++ (clinicalClose ++ c))))
      patientOpen_ne_nil patientClose_ne_nil h1 h2
  have hT : a ++ (patientOpen ++ (p ++ (patientClose ++ (b ++ (clinicalOpen ++
        (q ++ (clinicalClose ++ c))))))) =
      (a ++ (patientOpen ++ (p ++ (patientClose ++ b)))) ++
        (clinicalOpen ++ (q ++ (clinicalClose ++ c))) := by
    simp [List.append_assoc]
  rw [hT] at h3 h4
  have e2 : extractOne clinicalOpen clinicalClose
      ((a ++ (patientOpen ++ (p ++ (patientClose ++ b)))) ++
        (clinicalOpen ++ (q ++ (clinicalClose ++ c)))) = some q :=
    extractOne_decomp clinicalOpen clinicalClose
      (a ++ (patientOpen ++ (p ++ (patientClose ++ b)))) q c
      clinicalOpen_ne_nil clinicalClose_ne_nil h3 h4
  rw [← hT] at e2
  have hext : extract_summaries
      (a ++ (patientOpen ++ (p ++ (patientClose ++ (b ++ (clinicalOpen ++
        (q ++ (clinicalClose ++ c)))))))) = (some [], some []) := by
    simp [extract_summaries, e1, e2, hp, hq]
  refine ⟨hext, ?_⟩
  intro s prompt
  have hne : a ++ (patientOpen ++ (p ++ (patientClose ++ (b ++ (clinicalOpen ++
      (q ++ (clinicalClose ++ c))))))) ≠ [] := by
    intro h0
    have hl := congrArg List.length h0
    have h27 : patientOpen.length = 27 := by decide
    simp only [List.length_append, List.length_nil] at hl
    rw [h27] at hl
    omega
  have hie := isEmpty_false_of_ne _ hne
  constructor
  · rw [handle_patient_summary s prompt _ hie, hext]
    simp [truthyOpt]
  · rw [handle_clinical_summary s prompt _ hie, hext]
    simp [truthyOpt]

/-- Witness for C3 at a concrete response with whitespace-only bodies and
a session holding previously stored summaries. -/
theorem empty_body_sections_witness :
    extract_summaries (str "done " ++ patientOpen ++ str "  " ++ patientClose ++
      str " " ++ clinicalOpen ++ str "" ++ clinicalClose ++ str "") =
      (some [], some []) ∧
    ((handleChatInput storedState (str "hi")
        (some (str "done " ++ patientOpen ++ str "  " ++ patientClose ++
          str " " ++ clinicalOpen ++ str "" ++ clinicalClose ++ str ""))).1.patient_summary =
      storedState.patient_summary ∧
     (handleChatInput storedState (str "hi")
        (some (str "done " ++ patientOpen ++ str "  " ++ patientClose ++
          str " " ++ clinicalOpen ++ str "" ++ clinicalClose ++ str ""))).1.clinical_summary =
      storedState.clinical_summary) := by
  have h := empty_body_sections (str "done ") (str "  ") (str " ") (str "") (str "")
    (by decide) (by decide) (by decide) (by decide) (by decide) (by decide)
  exact ⟨h.1, h.2 storedState (str "hi")⟩

/-- Counterexample to C3's consequence as stated: a response carrying both
sections with empty bodies does not overwrite the stored summaries with
the empty pair — the previously stored nonempty pair survives. -/
theorem empty_body_sections_counterexample :
    extract_summaries emptyBothResponse = (some [], some []) ∧
    (handleChatInput storedState (str "hi")
        (some emptyBothResponse)).1.patient_summary = str "old1" ∧
    (handleChatInput storedState (str "hi")
        (some emptyBothResponse)).1.clinical_summary = str "old2" ∧
    str "old1" ≠ ([] : Text) :=
  ⟨by decide, by decide, by decide, by decide⟩

/-- C1 (amended): for input text containing one complete patient section
and one complete clinical section, in either order and non-overlapping —
formalized as: each of the four markers occurs exactly once in the input,
and additionally the clinical markers still occur exactly once in the
text obtained by deleting the patient section (deleting a section must
not splice together a new marker occurrence) — the Extractor returns both
section bodies trimmed, and the display text equals the input with both
sections removed and then trimmed. -/
theorem extractor_two_sections (a p b q c : Text) :
    (countOccur patientOpen (a ++ patientOpen ++ p ++ patientClose ++ b ++
        clinicalOpen ++ q ++ clinicalClose ++ c) = 1 →
     countOccur patientClose (a ++ patientOpen ++ p ++ patientClose ++ b ++
        clinicalOpen ++ q ++ clinicalClose ++ c) = 1 →
     countOccur clinicalOpen (a ++ patientOpen ++ p ++ patientClose ++ b ++
        clinicalOpen ++ q ++ clinicalClose ++ c) = 1 →
     countOccur clinicalClose (a ++ patientOpen ++ p ++ patientClose ++ b ++
        clinicalOpen ++ q ++ clinicalClose ++ c) = 1 →
     countOccur clinicalOpen (a ++ b ++ clinicalOpen ++ q ++ clinicalClose ++ c) = 1 →
     countOccur clinicalClose (a ++ b ++ clinicalOpen ++ q ++ clinicalClose ++ c) = 1 →
     extract_summaries (a ++ patientOpen ++ p ++ patientClose ++ b ++
        clinicalOpen ++ q ++ clinicalClose ++ c) =
       (some (pstrip p), some (pstrip q)) ∧
     clean_response_for_display (a ++ patientOpen ++ p ++ patientClose ++ b ++
        clinicalOpen ++ q ++ clinicalClose ++ c) = pstrip (a ++ b ++ c)) ∧
    (countOccur clinicalOpen (a ++ clinicalOpen ++ q ++ clinicalClose ++ b ++
        patientOpen ++ p ++ patientClose ++ c) = 1 →
     countOccur clinicalClose (a ++ clinicalOpen ++ q ++ clinicalClose ++ b ++
        patientOpen ++ p ++ patientClose ++ c) = 1 →
     countOccur patientOpen (a ++ clinicalOpen ++ q ++ clinicalClose ++ b ++
        patientOpen ++ p ++ patientClose ++ c) = 1 →
     countOccur patientClose (a ++ clinicalOpen ++ q ++ clinicalClose ++ b ++
        patientOpen ++ p ++ patientClose ++ c) = 1 →
     countOccur clinicalOpen (a ++ clinicalOpen ++ q ++ clinicalClose ++ b ++ c) = 1 →
     countOccur clinicalClose (a ++ clinicalOpen ++ q ++ clinicalClose ++ b ++ c) = 1 →
     extract_summaries (a ++ clinicalOpen ++ q ++ clinicalClose ++ b ++
        patientOpen ++ p ++ patientClose ++ c) =
       (some (pstrip p), some (pstrip q)) ∧
     clean_response_for_display (a ++ clinicalOpen ++ q ++ clinicalClose ++ b ++
        patientOpen ++ p ++ patientClose ++ c) = pstrip (a ++ b ++ c)) := by
  constructor
  · intro h1 h2 h3 h4 h5 h6
    simp only [List.append_assoc] at h1 h2 h3 h4 h5 h6 ⊢
    have e1 : extractOne patientOpen patientClose
        (a ++ (patientOpen ++ (p ++ (patientClose ++ (b ++ (clinicalOpen ++
          (q ++ (clinicalClose ++ c)))))))) = some p :=
      extractOne_decomp patientOpen patientClose a p
        (b ++ (clinicalOpen ++ (q ++ (clinicalClose ++ c))))
        patientOpen_ne_nil patientClose_ne_nil h1 h2
    have hT : a ++ (patientOpen ++ (p ++ (patientClose ++ (b ++ (clinicalOpen ++
          (q ++ (clinicalClose ++ c))))))) =
        (a ++ (patientOpen ++ (p ++ (patientClose ++ b)))) ++
          (clinicalOpen ++ (q ++ (clinicalClose ++ c))) := by
      simp [List.append_assoc]
    rw [hT] at h3 h4
    have e2 : extractOne clinicalOpen clinicalClose
        ((a ++ (patientOpen ++ (p ++ (patientClose ++ b)))) ++
          (clinicalOpen ++ (q ++ (clinicalClose ++ c)))) = some q :=
      extractOne_decomp clinicalOpen clinicalClose
        (a ++ (patientOpen ++ (p ++ (patientClose ++ b)))) q c
        clinicalOpen_ne_nil clinicalClose_ne_nil h3 h4
    rw [← hT] at e2
    have r1 : removeAll patientOpen patientClose
        (a ++ (patientOpen ++ (p ++ (patientClose ++ (b ++ (clinicalOpen ++
          (q ++ (clinicalClose ++ c)))))))) =
        a ++ (b ++ (clinicalOpen ++ (q ++ (clinicalClose ++ c)))) :=
      removeAll_decomp patientOpen patientClose a p
        (b ++ (clinicalOpen ++ (q ++ (clinicalClose ++ c))))
        patientOpen_ne_nil patientClose_ne_nil h1 h2
    have hS : a ++ (b ++ (clinicalOpen ++ (q ++ (clinicalClose ++ c)))) =
        (a ++ b) ++ (clinicalOpen ++ (q ++ (clinicalClose ++ c))) := by
      simp [List.append_assoc]
    rw [hS] at h5 h6
    have r2 : removeAll clinicalOpen clinicalClose
        ((a ++ b) ++ (clinicalOpen ++ (q ++ (clinicalClose ++ c)))) = (a ++ b) ++ c :=
      removeAll_decomp clinicalOpen clinicalClose (a ++ b) q c
        clinicalOpen_ne_nil clinicalClose_ne_nil h5 h6
    constructor
    · simp [extract_summaries, e1, e2]
    · unfold clean_response_for_display
      rw [r1, hS, r2, List.append_assoc]
  · intro g1 g2 g3 g4 g5 g6
    simp only [List.append_assoc] at g1 g2 g3 g4 g5 g6 ⊢
    have e2 : extractOne clinicalOpen clinicalClose
        (a ++ (clinicalOpen ++ (q ++ (clinicalClose ++ (b ++ (patientOpen ++
          (p ++ (patientClose ++ c)))))))) = some q :=
      extractOne_decomp clinicalOpen clinicalClose a q
        (b ++ (patientOpen ++ (p ++ (patientClose ++ c))))
        clinicalOpen_ne_nil clinicalClose_ne_nil g1 g2
    have hT2 : a ++ (clinicalOpen ++ (q ++ (clinicalClose ++ (b ++ (patientOpen ++
          (p ++ (patientClose ++ c))))))) =
        (a ++ (clinicalOpen ++ (q ++ (clinicalClose ++ b)))) ++
          (patientOpen ++ (p ++ (patientClose ++ c))) := by
      simp [List.append_assoc]
    rw [hT2] at g3 g4
    have e1 : extractOne patientOpen patientClose
        ((a ++ (clinicalOpen ++ (q ++ (clinicalClose ++ b)))) ++
          (patientOpen ++ (p ++ (patientClose ++ c)))) = some p :=
      extractOne_decomp patientOpen patientClose
        (a ++ (clinicalOpen ++ (q ++ (clinicalClose ++ b)))) p c
        patientOpen_ne_nil patientClose_ne_nil g3 g4
    rw [← hT2] at e1
    have r1 : removeAll patientOpen patientClose
        ((a ++ (clinicalOpen ++ (q ++ (clinicalClose ++ b)))) ++
          (patientOpen ++ (p ++ (patientClose ++ c)))) =
        (a ++ (clinicalOpen ++ (q ++ (clinicalClose ++ b)))) ++ c :=
      removeAll_decomp patientOpen patientClose
        (a ++ (clinicalOpen ++ (q ++ (clinicalClose ++ b)))) p c
        patientOpen_ne_nil patientClose_ne_nil g3 g4
    have hS2 : (a ++ (clinicalOpen ++ (q ++ (clinicalClose ++ b)))) ++ c =
        a ++ (clinicalOpen ++ (q ++ (clinicalClose ++ (b ++ c)))) := by
      simp [List.append_assoc]
    have r2 : removeAll clinicalOpen clinicalClose
        (a ++ (clinicalOpen ++ (q ++ (clinicalClose ++ (b ++ c))))) = a ++ (b ++ c) :=
      removeAll_decomp clinicalOpen clinicalClose a q (b ++ c)
        clinicalOpen_ne_nil clinicalClose_ne_nil g5 g6
    constructor
    · simp [extract_summaries, e1, e2]
    · unfold clean_response_for_display
      rw [hT2, r1, hS2, r2]

/-- Witness for C1 at the response of Example 1: display text
`"Take ibuprofen."` and both summaries extracted trimmed. -/
theorem extractor_two_sections_witness :
    extract_summaries exampleResponse =
      (some (str "Mild headache, advised rest."),
       some (str "Tension cephalalgia, no red flags.")) ∧
    clean_response_for_display exampleResponse = str "Take ibuprofen." := by
  have heq : exampleResponse =
      str "Take ibuprofen. " ++ patientOpen ++ str "Mild headache, advised rest." ++
        patientClose ++ str " " ++ clinicalOpen ++
        str "Tension cephalalgia, no red flags." ++ clinicalClose ++ str "" := by
    decide
  have h := (extractor_two_sections (str "Take ibuprofen. ")
      (str "Mild headache, advised rest.") (str " ")
      (str "Tension cephalalgia, no red flags.") (str "")).1
    (by decide) (by decide) (by decide) (by decide) (by decide) (by decide)
  rw [heq]
  refine ⟨?_, ?_⟩
  · rw [h.1]
    decide
  · rw [h.2]
    decide

/-- Counterexample to C1 as stated: `spliceExample` contains exactly one
complete patient section and one complete clinical section,
non-overlapping, yet its display text is `"end"` rather than the input
with the two sections removed and trimmed — deleting the patient section
splices together a new clinical open marker, and the cleaning pass then
also deletes the spliced-in region. -/
theorem extractor_two_sections_counterexample :
    spliceExample =
      str "---BEGIN_CLINICAL_SUMMARY_CONFIDENTI" ++ patientOpen ++ str "P" ++
        patientClose ++ str "AL---X" ++ clinicalOpen ++ str "Q" ++ clinicalClose ++
        str "end" ∧
    countOccur patientOpen spliceExample = 1 ∧
    countOccur patientClose spliceExample = 1 ∧
    countOccur clinicalOpen spliceExample = 1 ∧
    countOccur clinicalClose spliceExample = 1 ∧
    extract_summaries spliceExample = (some (str "P"), some (str "Q")) ∧
    clean_response_for_display spliceExample = str "end" ∧
    clean_response_for_display spliceExample ≠
      pstrip (str "---BEGIN_CLINICAL_SUMMARY_CONFIDENTI" ++ str "AL---X" ++ str "end") :=
  ⟨by decide, by decide, by decide, by decide, by decide, by decide, by decide,
   by decide⟩

end HealthBot
